import Mathlib

/-!
Shallow embedding of the r_6502 toolchain (assembler + execution engine)
for verification of its natural-language specification.

Source files embedded: `src/token.rs`, `src/memory.rs`, `src/cpu.rs`,
`src/asm_runner.rs`, `src/asm_parser.rs`, `src/util.rs`.

Machine integers are modelled as `Nat` with explicit wrap-around where the
Rust types wrap (`u16` program counter / cursor, `u32` cycle counter);
Rust panics are modelled as `Except` errors (for the assembler the error
carries the state at panic time, so absence of partial emission is
expressible); `println!`-and-continue paths are modelled as successful
no-ops, exactly as the code behaves.
-/

namespace R6502

/-- The instruction-variant enum of `src/token.rs`; each variant carries the
opcode byte as its discriminant (see `Token.code`). -/
inductive Token where
  | LDA | LdaZP | LdaAP
  | LDX | LdxZP | LdxAP
  | LDY | LdyZP | LdyAP
  | ADC | AdcZP | AdcAP
  | STA | StaAP
  | STX | StxAP
  | STY | StyAP
  | JMP | JmpID
  | JSR
  | AND | AndZP | AndAP
  | ASL | AslZP | AslAP
  | BCC | BCS | BEQ
  | BIT | BitAP
  | BMI | BNE | BPL | BRK | BVC | BVS
  | CLC | CLD | CLI | CLV
  | CMP | CmpZP | CmpAP
  | CPX | CpxZP | CpxAP
  | CPY | CpyZP | CpyAP
  | DEC | DecAP
  | DEX | DEY
  | EOR | EorZP | EorAP
  | INC | IncAP
  | INX | INY
  | LSR | LsrZP | LsrAP
  | NOP
  | ORA | OraZP | OraAP
  | PHA | PHP | PLA | PLP
  | ROL | RolZP | RolAP
  | ROR | RorZP | RorAP
  | RTI | RTS
  | SBC | SbcZP | SbcAP
  | SEC | SED | SEI
  | TAX | TAY | TSX | TXA | TXS | TYA
deriving DecidableEq

/-- The opcode byte of each variant: the `#[repr(u8)]` discriminant values
assigned in `src/token.rs` (used by `token as u8` casts in the assembler). -/
def Token.code : Token → Nat
  | .LDA => 0x89 | .LdaZP => 0xA5 | .LdaAP => 0xAD
  | .LDX => 0xA2 | .LdxZP => 0xA6 | .LdxAP => 0xAE
  | .LDY => 0xA0 | .LdyZP => 0xA4 | .LdyAP => 0xAC
  | .ADC => 0x69 | .AdcZP => 0x65 | .AdcAP => 0x6D
  | .STA => 0x95 | .StaAP => 0x8D
  | .STX => 0x86 | .StxAP => 0x96
  | .STY => 0x84 | .StyAP => 0x94
  | .JMP => 0x4C | .JmpID => 0x6C
  | .JSR => 0x20
  | .AND => 0x29 | .AndZP => 0x25 | .AndAP => 0x2D
  | .ASL => 0x0A | .AslZP => 0x06 | .AslAP => 0x0E
  | .BCC => 0x90 | .BCS => 0xB0 | .BEQ => 0xF0
  | .BIT => 0x24 | .BitAP => 0x2C
  | .BMI => 0x30 | .BNE => 0xD0 | .BPL => 0x10
  | .BRK => 0x00 | .BVC => 0x50 | .BVS => 0x70
  | .CLC => 0x18 | .CLD => 0xD8 | .CLI => 0x58 | .CLV => 0xB8
  | .CMP => 0xC9 | .CmpZP => 0xC5 | .CmpAP => 0xCD
  | .CPX => 0xE0 | .CpxZP => 0xE4 | .CpxAP => 0xEC
  | .CPY => 0xC0 | .CpyZP => 0xC4 | .CpyAP => 0xCC
  | .DEC => 0xC6 | .DecAP => 0xCE
  | .DEX => 0xCA | .DEY => 0x88
  | .EOR => 0x49 | .EorZP => 0x45 | .EorAP => 0x4D
  | .INC => 0xE6 | .IncAP => 0xEE
  | .INX => 0xE8 | .INY => 0xC8
  | .LSR => 0x4A | .LsrZP => 0x46 | .LsrAP => 0x4E
  | .NOP => 0xEA
  | .ORA => 0x09 | .OraZP => 0x05 | .OraAP => 0x0D
  | .PHA => 0x48 | .PHP => 0x08 | .PLA => 0x68 | .PLP => 0x28
  | .ROL => 0x2A | .RolZP => 0x26 | .RolAP => 0x2E
  | .ROR => 0x6A | .RorZP => 0x66 | .RorAP => 0x6E
  | .RTI => 0x40 | .RTS => 0x60
  | .SBC => 0xE9 | .SbcZP => 0xE5 | .SbcAP => 0xED
  | .SEC => 0x38 | .SED => 0xF8 | .SEI => 0x78
  | .TAX => 0xAA | .TAY => 0xA8 | .TSX => 0xBA
  | .TXA => 0x8A | .TXS => 0x9A | .TYA => 0x98

/-- Modulus of the Rust `u16` type (program counter, write cursor). -/
def u16Mod : Nat := 65536

/-- Modulus of the Rust `u32` type (cycle-budget counter). -/
def u32Mod : Nat := 4294967296

/-- Modelled from the spec: `cycle_map::init` is called by both the
assembler and the runner, but the `cycle_map` module is not among the
provided sources.  Per spec 4.4 the execution engine consumes 1 cycle for
the opcode fetch plus 1 per consumed byte, so an immediate load costs 2
cycles, a zero-page load 3 and an absolute load 4; spec 3 requires every
variant in the table to carry a cost in the range 1-7, so the remaining
variants (whose exact costs no verified claim depends on) are given a
nominal cost of 2.  Modelled total, matching the spec invariant that every
encodable variant has cost data. -/
def cycle_map : Token → Nat
  | .LDA => 2 | .LDX => 2 | .LDY => 2
  | .LdaZP => 3 | .LdxZP => 3 | .LdyZP => 3
  | .LdaAP => 4 | .LdxAP => 4 | .LdyAP => 4
  | _ => 2

/-- Modelled from the spec: `util::combine_address` is used by
`asm_runner.rs` but absent from the provided `src/util.rs`.  Per spec 4.4
the two absolute address bytes are consumed low-then-high and combined
into a 16-bit address (little-endian), so the high byte is the most
significant one. -/
def combine_address (l_byte h_byte : Nat) : Nat :=
  h_byte * 256 + l_byte

/-- Modelled from the spec: `util::check_7_bit` is used by
`CPU::check_n_flag` but absent from the provided `src/util.rs`.  Per spec
4.5 the negative predicate is `negative(value) = bit7(value) != 0`. -/
def check_7_bit (value : Nat) : Bool :=
  Nat.testBit value 7

/-- The memory image of `src/memory.rs`: a byte store (modelled as a
function, zero elsewhere when built by `mkMem`) plus the `u32` cycle
counter. -/
structure Memory where
  data : Nat → Nat
  data_cycle_count : Nat

/-- Builds a concrete memory image: the listed bytes from address 0 on,
zero elsewhere (as `Memory::new`/`init` zero-fill), with the given cycle
count. -/
def mkMem (bytes : List Nat) (cyc : Nat) : Memory :=
  { data := fun j => bytes.getD j 0, data_cycle_count := cyc }

/-- Writes one byte at an address of the memory image
(`mem.data[addr] = val`). -/
def Memory.write (m : Memory) (addr val : Nat) : Memory :=
  { m with data := fun j => if j = addr then val else m.data j }

/-- Adds a cycle cost to the budget counter
(`mem.data_cycle_count += n`, `u32` wrap-around). -/
def Memory.addCycles (m : Memory) (k : Nat) : Memory :=
  { m with data_cycle_count := (m.data_cycle_count + k) % u32Mod }

/-- The CPU state of `src/cpu.rs`: program counter, stack pointer, memory,
registers x/a/y and the seven flag bits. -/
structure CPU where
  pc : Nat
  sp : Nat
  memory : Memory
  x : Nat
  a : Nat
  y : Nat
  c : Nat
  z : Nat
  i : Nat
  d : Nat
  b : Nat
  v : Nat
  n : Nat

/-- Embeds `CPU::check_n_flag` of `src/cpu.rs`.  As in the source, all three
register branches test `self.a` via `check_7_bit`, and an unknown register
code only prints an error and leaves the state unchanged. -/
def CPU.check_n_flag (cpu : CPU) (register : Nat) : CPU :=
  match register with
  | 0 => if check_7_bit cpu.a then { cpu with n := 1 } else { cpu with n := 0 }
  | 1 => if check_7_bit cpu.a then { cpu with n := 1 } else { cpu with n := 0 }
  | 2 => if check_7_bit cpu.a then { cpu with n := 1 } else { cpu with n := 0 }
  | _ => cpu

/-- Embeds `CPU::check_z_flag` of `src/cpu.rs`: tests the selected register
against 0; an unknown register code only prints and leaves the state
unchanged. -/
def CPU.check_z_flag (cpu : CPU) (register : Nat) : CPU :=
  match register with
  | 0 => if cpu.a = 0 then { cpu with z := 1 } else { cpu with z := 0 }
  | 1 => if cpu.x = 0 then { cpu with z := 1 } else { cpu with z := 0 }
  | 2 => if cpu.y = 0 then { cpu with z := 1 } else { cpu with z := 0 }
  | _ => cpu

namespace AsmRunner

/-- Register codes of `src/asm_runner.rs` (`const A/X/Y`). -/
def A : Nat := 0

/-- Register code X. -/
def X : Nat := 1

/-- Register code Y. -/
def Y : Nat := 2

/-- Runtime faults: the panics of `src/asm_runner.rs` plus fuel exhaustion
of the embedded `while` loop (an artifact of totalising the loop; every
theorem below supplies enough fuel). -/
inductive RunErr where
  | commandNotFound
  | segFault
  | invalidRegister
  | fuelExhausted
deriving DecidableEq

/-- Embeds `cycle_a_pc_inc` of `src/asm_runner.rs`: decrements the `u32` cycle
counter and increments the `u16` program counter, both with Rust
wrap-around semantics. -/
def cycle_a_pc_inc (cpu : CPU) : CPU :=
  { cpu with
      memory := { cpu.memory with
        data_cycle_count := (cpu.memory.data_cycle_count + (u32Mod - 1)) % u32Mod }
      pc := (cpu.pc + 1) % u16Mod }

/-- Embeds `load_immediate_value` of `src/asm_runner.rs`.  As in the source, each
branch writes the byte at `pc` into the destination register and then
calls `check_n_flag` twice (`check_z_flag` is never called), and the
trailing `cycle_a_pc_inc` runs after the match. -/
def load_immediate_value (register : Nat) (cpu : CPU) : Except RunErr CPU :=
  match register with
  | 0 =>
      let cpu1 := { cpu with a := cpu.memory.data cpu.pc }
      let cpu2 := (cpu1.check_n_flag 0).check_n_flag 0
      .ok (cycle_a_pc_inc cpu2)
  | 1 =>
      let cpu1 := { cpu with x := cpu.memory.data cpu.pc }
      let cpu2 := (cpu1.check_n_flag 1).check_n_flag 1
      .ok (cycle_a_pc_inc cpu2)
  | 2 =>
      let cpu1 := { cpu with y := cpu.memory.data cpu.pc }
      let cpu2 := (cpu1.check_n_flag 2).check_n_flag 2
      .ok (cycle_a_pc_inc cpu2)
  | _ => .error .invalidRegister

/-- Embeds `load_zp_location` of `src/asm_runner.rs`: reads the zero-page address
byte at `pc`, then the value at that address, updating only the n flag. -/
def load_zp_location (register : Nat) (cpu : CPU) : Except RunErr CPU :=
  let mem_loc := cpu.memory.data cpu.pc
  let cpu0 := cycle_a_pc_inc cpu
  match register with
  | 0 =>
      let cpu1 := { cpu0 with a := cpu0.memory.data mem_loc }
      let cpu2 := cycle_a_pc_inc cpu1
      .ok (cpu2.check_n_flag 0)
  | 1 =>
      let cpu1 := { cpu0 with x := cpu0.memory.data mem_loc }
      let cpu2 := cycle_a_pc_inc cpu1
      .ok (cpu2.check_n_flag 1)
  | 2 =>
      let cpu1 := { cpu0 with y := cpu0.memory.data mem_loc }
      let cpu2 := cycle_a_pc_inc cpu1
      .ok (cpu2.check_n_flag 2)
  | _ => .error .invalidRegister

/-- Embeds `load_ap_location` of `src/asm_runner.rs`.  Faithful to the source:
the register-2 (Y) branch assigns `cpu.a` (not `cpu.y`), and after the
match one more `cycle_a_pc_inc` runs (in addition to the one inside each
branch). -/
def load_ap_location (register : Nat) (cpu : CPU) : Except RunErr CPU :=
  let l_byte := cpu.memory.data cpu.pc
  let cpu0 := cycle_a_pc_inc cpu
  let h_byte := cpu0.memory.data cpu0.pc
  let cpu1 := cycle_a_pc_inc cpu0
  let c_bytes := combine_address l_byte h_byte
  let branch : Except RunErr CPU :=
    match register with
    | 0 =>
        let cpu2 := { cpu1 with a := cpu1.memory.data c_bytes }
        let cpu3 := cycle_a_pc_inc cpu2
        .ok ((cpu3.check_n_flag 0).check_z_flag 0)
    | 1 =>
        let cpu2 := { cpu1 with x := cpu1.memory.data c_bytes }
        let cpu3 := cycle_a_pc_inc cpu2
        .ok ((cpu3.check_n_flag 1).check_z_flag 1)
    | 2 =>
        let cpu2 := { cpu1 with a := cpu1.memory.data c_bytes }
        let cpu3 := cycle_a_pc_inc cpu2
        .ok ((cpu3.check_n_flag 2).check_z_flag 2)
    | _ => .error .invalidRegister
  match branch with
  | .ok cpu4 => .ok (cycle_a_pc_inc cpu4)
  | .error e => .error e

/-- Embeds `load_memory_location` of `src/asm_runner.rs`: per-register dispatch
to the zero-page or absolute loader. -/
def load_memory_location (register : Nat) (cpu : CPU) (is_zp : Bool) : Except RunErr CPU :=
  match register with
  | 0 => if is_zp then load_zp_location 0 cpu else load_ap_location 0 cpu
  | 1 => if is_zp then load_zp_location 1 cpu else load_ap_location 1 cpu
  | 2 => if is_zp then load_zp_location 2 cpu else load_ap_location 2 cpu
  | _ => .error .invalidRegister

/-- Embeds `load` of `src/asm_runner.rs`: instruction-variant dispatch; any other
token panics ("Seg fault"). -/
def load (token : Token) (cpu : CPU) : Except RunErr CPU :=
  match token with
  | .LDA => load_immediate_value A cpu
  | .LDX => load_immediate_value X cpu
  | .LDY => load_immediate_value Y cpu
  | .LdaZP => load_memory_location A cpu true
  | .LdaAP => load_memory_location A cpu false
  | _ => .error .segFault

/-- The opcode decode of `run_memory`'s match in `src/asm_runner.rs`: only
five opcode bytes are recognised; any other byte panics
("Command not found"), modelled as `none`. -/
def decode (current_value : Nat) : Option Token :=
  match current_value with
  | 0x89 => some .LDA
  | 0xA2 => some .LDX
  | 0xA0 => some .LDY
  | 0xA5 => some .LdaZP
  | 0xAD => some .LdaAP
  | _ => none

/-- One iteration of the `while` body of `run_memory`: fetch the byte at
`pc`, charge one cycle and advance `pc`, then decode and dispatch. -/
def step (cpu : CPU) : Except RunErr CPU :=
  let current_value := cpu.memory.data cpu.pc
  let cpu1 := cycle_a_pc_inc cpu
  match decode current_value with
  | some t => load t cpu1
  | none => .error .commandNotFound

/-- Embeds `run_memory` of `src/asm_runner.rs`: the fetch-decode-execute loop,
running while the cycle counter is positive; totalised with fuel.  An `.ok`
result means the loop exited with the counter at 0 (the Halted state). -/
def run_memory : Nat → CPU → Except RunErr CPU
  | 0, cpu =>
      if 0 < cpu.memory.data_cycle_count then .error .fuelExhausted else .ok cpu
  | fuel + 1, cpu =>
      if 0 < cpu.memory.data_cycle_count then
        match step cpu with
        | .ok cpu1 => run_memory fuel cpu1
        | .error e => .error e
      else .ok cpu

end AsmRunner

namespace AsmParser

/-- Rust's `str::split(" ")` semantics on a character list: split at every
single space, keeping empty segments (`"" → [""]`, `"a  b" → ["a","","b"]`),
as used by `parse_line` in `src/asm_parser.rs`. -/
def splitSpaces : List Char → List (List Char)
  | [] => [[]]
  | ch :: rest =>
      if ch = ' ' then [] :: splitSpaces rest
      else
        match splitSpaces rest with
        | t :: ts => (ch :: t) :: ts
        | [] => [[ch]]

/-- Value of one hexadecimal digit (as `u8::from_str_radix(_, 16)` accepts:
0-9, a-f, A-F). -/
def hexDigitVal (ch : Char) : Option Nat :=
  if 48 ≤ ch.toNat ∧ ch.toNat ≤ 57 then some (ch.toNat - 48)
  else if 97 ≤ ch.toNat ∧ ch.toNat ≤ 102 then some (ch.toNat - 87)
  else if 65 ≤ ch.toNat ∧ ch.toNat ≤ 70 then some (ch.toNat - 55)
  else none

/-- Accumulating hexadecimal evaluation of a digit string. -/
def hexCore : List Char → Nat → Option Nat
  | [], acc => some acc
  | ch :: rest, acc =>
      match hexDigitVal ch with
      | some dv => hexCore rest (acc * 16 + dv)
      | none => none

/-- Embeds `from_str_radix(_, 16)` without the width bound: rejects the empty
string, accepts an optional leading plus sign followed by at least one hex
digit. -/
def parseHex (s : List Char) : Option Nat :=
  match s with
  | [] => none
  | ch :: rest =>
      if ch = '+' then (if rest = [] then none else hexCore rest 0)
      else hexCore (ch :: rest) 0

/-- Embeds `util::convert_hex_string_to_u8` of `src/util.rs`:
`u8::from_str_radix(value, 16)`, panicking (here `none`) on malformed text
or overflow past 255. -/
def convert_hex_string_to_u8 (s : List Char) : Option Nat :=
  match parseHex s with
  | some val => if val ≤ 255 then some val else none
  | none => none

/-- Embeds `util::is_zero_page` of `src/util.rs`: parse as `u16` hex (panicking
on malformed text or overflow past 65535) and test `< 256`. -/
def is_zero_page (s : List Char) : Option Bool :=
  match parseHex s with
  | some val => if val ≤ 65535 then some (val < 256) else none
  | none => none

/-- Value of one decimal digit. -/
def decDigitVal (ch : Char) : Option Nat :=
  if 48 ≤ ch.toNat ∧ ch.toNat ≤ 57 then some (ch.toNat - 48) else none

/-- Accumulating decimal evaluation of a digit string. -/
def decCore : List Char → Nat → Option Nat
  | [], acc => some acc
  | ch :: rest, acc =>
      match decDigitVal ch with
      | some dv => decCore rest (acc * 10 + dv)
      | none => none

/-- Decimal `str::parse`: rejects the empty string, accepts an optional
leading plus sign followed by at least one digit. -/
def parseDec (s : List Char) : Option Nat :=
  match s with
  | [] => none
  | ch :: rest =>
      if ch = '+' then (if rest = [] then none else decCore rest 0)
      else decCore (ch :: rest) 0

/-- Embeds `util::convert_string_to_u8` of `src/util.rs`: `value.parse::<u8>()`,
panicking (here `none`) on malformed text or overflow past 255. -/
def convert_string_to_u8 (s : List Char) : Option Nat :=
  match parseDec s with
  | some val => if val ≤ 255 then some val else none
  | none => none

/-- Rust string slicing `&s[a..b]` on ASCII text: panics (here `none`)
when the range exceeds the string. -/
def sliceStr (s : List Char) (lo hi : Nat) : Option (List Char) :=
  if lo ≤ hi ∧ hi ≤ s.length then some ((s.drop lo).take (hi - lo)) else none

/-- Embeds `is_hex` of `src/asm_parser.rs`: tests whether the first character is
a dollar sign; panics (here `none`) on the empty string. -/
def is_hex (value : List Char) : Option Bool :=
  match value with
  | [] => none
  | ch :: _ => some (ch = '$')

/-- Assembler state threaded through `src/asm_parser.rs`: the memory image
being written and the `u16` write cursor `curr_mem_add`. -/
structure AsmState where
  mem : Memory
  curr_mem_add : Nat

/-- Assembler panics of `src/asm_parser.rs` and the conversion helpers of
`src/util.rs`.  `synError` is the "Syntax error" panic on an unknown
mnemonic. -/
inductive AsmErr where
  | synError (tok : List Char)
  | emptyCommand
  | noRelativeToken
  | noImmediateToken
  | noMemLocationToken
  | noZeroPageToken
  | hexEmpty
  | hexParse
  | decParse
  | sliceRange
deriving DecidableEq

/-- Embeds `populate_string_to_token_table` of `src/asm_parser.rs`: the mnemonic
table, as an association list in source order. -/
def populate_string_to_token_table : List (List Char × Token) :=
  [("LDA".data, .LDA), ("LDX".data, .LDX), ("LDY".data, .LDY),
   ("ADC".data, .ADC), ("STA".data, .STA), ("STX".data, .STX),
   ("STY".data, .STY), ("JMP".data, .JMP), ("JSR".data, .JSR),
   ("AND".data, .AND), ("ASL".data, .ASL), ("BCC".data, .BCC),
   ("BCS".data, .BCS), ("BEQ".data, .BEQ), ("BIT".data, .BIT),
   ("BMI".data, .BMI), ("BNE".data, .BNE), ("BPL".data, .BPL),
   ("BRK".data, .BRK), ("BVC".data, .BVC), ("BVS".data, .BVS),
   ("CLC".data, .CLC), ("CLD".data, .CLD), ("CLI".data, .CLI),
   ("CLV".data, .CLV), ("CMP".data, .CMP), ("CPX".data, .CPX),
   ("CPY".data, .CPY), ("DEC".data, .DEC), ("DEX".data, .DEX),
   ("DEY".data, .DEY), ("EOR".data, .EOR), ("INC".data, .INC),
   ("INX".data, .INX), ("INY".data, .INY), ("LSR".data, .LSR),
   ("NOP".data, .NOP), ("ORA".data, .ORA), ("PHA".data, .PHA),
   ("PHP".data, .PHP), ("PLA".data, .PLA), ("PLP".data, .PLP),
   ("ROL".data, .ROL), ("ROR".data, .ROR), ("RTI".data, .RTI),
   ("RTS".data, .RTS), ("SBC".data, .SBC), ("SEC".data, .SEC),
   ("SED".data, .SED), ("SEI".data, .SEI), ("TAX".data, .TAX),
   ("TAY".data, .TAY), ("TSX".data, .TSX), ("TXA".data, .TXA),
   ("TXS".data, .TXS), ("TYA".data, .TYA)]

/-- Exact-match lookup in an association list (the `HashMap::get` of the
mnemonic table). -/
def lookupAssoc : List Char → List (List Char × Token) → Option Token
  | _, [] => none
  | s, (k, t) :: rest => if k = s then some t else lookupAssoc s rest

/-- Mnemonic lookup against the table of
`populate_string_to_token_table`. -/
def lookup_token (s : List Char) : Option Token :=
  lookupAssoc s populate_string_to_token_table

/-- Embeds `load_relative_value` of `src/asm_parser.rs`: add the variant's cycle
cost, emit the opcode byte at the cursor, advance the cursor.  (The
"Cycle Error" panic branch is unreachable: the modelled `cycle_map` is
total, per the spec invariant.) -/
def load_relative_value (t : Token) (st : AsmState) : Except (AsmErr × AsmState) AsmState :=
  let st1 : AsmState := { st with mem := st.mem.addCycles (cycle_map t) }
  .ok { st1 with
          mem := st1.mem.write st1.curr_mem_add t.code,
          curr_mem_add := (st1.curr_mem_add + 1) % u16Mod }

/-- Embeds `load_zero_page` of `src/asm_parser.rs`: add the cycle cost, emit the
opcode byte, then convert the hex operand (a panic there happens after the
opcode byte was already written) and emit it. -/
def load_zero_page (t : Token) (value : List Char) (st : AsmState) :
    Except (AsmErr × AsmState) AsmState :=
  let st1 : AsmState := { st with mem := st.mem.addCycles (cycle_map t) }
  let st2 : AsmState := { st1 with
                            mem := st1.mem.write st1.curr_mem_add t.code,
                            curr_mem_add := (st1.curr_mem_add + 1) % u16Mod }
  match convert_hex_string_to_u8 value with
  | some val =>
      .ok { st2 with
              mem := st2.mem.write st2.curr_mem_add val,
              curr_mem_add := (st2.curr_mem_add + 1) % u16Mod }
  | none => .error (.hexParse, st2)

/-- Embeds `load_mem_page` of `src/asm_parser.rs`: add the cycle cost, emit the
opcode byte, slice the first two hex digits as the high byte and the next
two as the low byte, and emit low-then-high (little-endian); a slice or
conversion panic happens after the opcode byte was written. -/
def load_mem_page (t : Token) (value : List Char) (st : AsmState) :
    Except (AsmErr × AsmState) AsmState :=
  let st1 : AsmState := { st with mem := st.mem.addCycles (cycle_map t) }
  let st2 : AsmState := { st1 with
                            mem := st1.mem.write st1.curr_mem_add t.code,
                            curr_mem_add := (st1.curr_mem_add + 1) % u16Mod }
  match sliceStr value 0 2 with
  | none => .error (.sliceRange, st2)
  | some hs =>
      match convert_hex_string_to_u8 hs with
      | none => .error (.hexParse, st2)
      | some h_byte =>
          match sliceStr value 2 4 with
          | none => .error (.sliceRange, st2)
          | some ls =>
              match convert_hex_string_to_u8 ls with
              | none => .error (.hexParse, st2)
              | some l_byte =>
                  let st3 : AsmState := { st2 with
                      mem := st2.mem.write st2.curr_mem_add l_byte,
                      curr_mem_add := (st2.curr_mem_add + 1) % u16Mod }
                  .ok { st3 with
                          mem := st3.mem.write st3.curr_mem_add h_byte,
                          curr_mem_add := (st3.curr_mem_add + 1) % u16Mod }

/-- Embeds `load_immediate_value` of `src/asm_parser.rs`: add the cycle cost
first (so a later panic leaves it added), test for the `$` prefix, emit
the opcode byte and the converted operand byte. -/
def load_immediate_value (t : Token) (value : List Char) (st : AsmState) :
    Except (AsmErr × AsmState) AsmState :=
  let st1 : AsmState := { st with mem := st.mem.addCycles (cycle_map t) }
  match is_hex value with
  | none => .error (.hexEmpty, st1)
  | some true =>
      let st2 : AsmState := { st1 with
                                mem := st1.mem.write st1.curr_mem_add t.code,
                                curr_mem_add := (st1.curr_mem_add + 1) % u16Mod }
      match convert_hex_string_to_u8 (value.drop 1) with
      | some val =>
          .ok { st2 with
                  mem := st2.mem.write st2.curr_mem_add val,
                  curr_mem_add := (st2.curr_mem_add + 1) % u16Mod }
      | none => .error (.hexParse, st2)
  | some false =>
      let st2 : AsmState := { st1 with
                                mem := st1.mem.write st1.curr_mem_add t.code,
                                curr_mem_add := (st1.curr_mem_add + 1) % u16Mod }
      match convert_string_to_u8 value with
      | some val =>
          .ok { st2 with
                  mem := st2.mem.write st2.curr_mem_add val,
                  curr_mem_add := (st2.curr_mem_add + 1) % u16Mod }
      | none => .error (.decParse, st2)

/-- Embeds `load_immediate_command` of `src/asm_parser.rs`: the tokens accepting
an immediate operand; anything else panics. -/
def load_immediate_command (t : Token) (value : List Char) (st : AsmState) :
    Except (AsmErr × AsmState) AsmState :=
  match t with
  | .LDA | .LDX | .LDY | .ADC | .AND | .CMP | .CPX | .CPY
  | .EOR | .ORA | .ROL | .ROR | .SBC => load_immediate_value t value st
  | _ => .error (.noImmediateToken, st)

/-- The per-mnemonic branch body repeated throughout
`load_memory_location` in `src/asm_parser.rs`:
`if is_zero_page(value) { load_zero_page(zp) } else { load_mem_page(ap) }`,
with the `is_zero_page` panic propagated. -/
def zpOrAp (zp ap : Token) (value : List Char) (st : AsmState) :
    Except (AsmErr × AsmState) AsmState :=
  match is_zero_page value with
  | none => .error (.hexParse, st)
  | some true => load_zero_page zp value st
  | some false => load_mem_page ap value st

/-- Embeds `load_memory_location` of `src/asm_parser.rs`: selects the zero-page
or absolute variant per mnemonic (`JMP`/`JSR` go straight to
`load_mem_page`); unmatched tokens panic. -/
def load_memory_location (t : Token) (value : List Char) (st : AsmState) :
    Except (AsmErr × AsmState) AsmState :=
  match t with
  | .LDA => zpOrAp .LdaZP .LdaAP value st
  | .LDX => zpOrAp .LdxZP .LdxAP value st
  | .LDY => zpOrAp .LdyZP .LdyAP value st
  | .ADC => zpOrAp .AdcZP .AdcAP value st
  | .STA => zpOrAp .STA .StaAP value st
  | .STX => zpOrAp .STX .StxAP value st
  | .STY => zpOrAp .STY .StyAP value st
  | .JMP => load_mem_page .JMP value st
  | .JSR => load_mem_page .JSR value st
  | .AND => zpOrAp .AndZP .AndAP value st
  | .ASL => zpOrAp .AslZP .AslAP value st
  | .BIT => zpOrAp .BIT .BitAP value st
  | .CMP => zpOrAp .CmpZP .CmpAP value st
  | .CPX => zpOrAp .CpxZP .CpxAP value st
  | .CPY => zpOrAp .CpyZP .CpyAP value st
  | .DEC => zpOrAp .DEC .DecAP value st
  | .EOR => zpOrAp .EorZP .EorAP value st
  | .INC => zpOrAp .INC .IncAP value st
  | .LSR => zpOrAp .LsrZP .LsrAP value st
  | .ORA => zpOrAp .OraZP .OraAP value st
  | .ROL => zpOrAp .RolZP .RolAP value st
  | .ROR => zpOrAp .RorZP .RorAP value st
  | .SBC => zpOrAp .SbcZP .SbcAP value st
  | _ => .error (.noZeroPageToken, st)

/-- Embeds `load_mem_location_command` of `src/asm_parser.rs`: the tokens
accepting a memory-reference operand; anything else panics. -/
def load_mem_location_command (t : Token) (value : List Char) (st : AsmState) :
    Except (AsmErr × AsmState) AsmState :=
  match t with
  | .LDA | .LDX | .LDY | .ADC | .STA | .STX | .STY | .JMP | .JSR
  | .AND | .ASL | .BIT | .CMP | .CPX | .CPY | .DEC | .EOR | .INC
  | .LSR | .ORA | .ROL | .ROR | .SBC => load_memory_location t value st
  | _ => .error (.noMemLocationToken, st)

/-- Embeds `handle_one_character_line` of `src/asm_parser.rs`: unknown mnemonics
panic with "Syntax error" before any mutation; known mnemonics outside the
implied/relative list panic as well. -/
def handle_one_character_line (token : List Char) (st : AsmState) :
    Except (AsmErr × AsmState) AsmState :=
  match lookup_token token with
  | none => .error (.synError token, st)
  | some found_token =>
      match found_token with
      | .ASL | .BCC | .BCS | .BEQ | .BMI | .BNE | .BPL | .BRK | .BVC | .BVS
      | .CLC | .CLD | .CLI | .CLV | .DEX | .DEY | .INX | .INY | .LSR | .NOP
      | .PHA | .PLA | .PLP | .ROL | .ROR | .RTI | .RTS | .SEC | .SED | .SEI
      | .TAX | .TAY | .TSX | .TXA | .TXS | .TYA =>
          load_relative_value found_token st
      | _ => .error (.noRelativeToken, st)

/-- Embeds `handle_two_character_line` of `src/asm_parser.rs`: unknown mnemonics
panic with "Syntax error" before any mutation; an empty operand panics;
`#` dispatches to the immediate path, `$` to the memory path; any other
leading character only prints "default" and succeeds without touching the
state. -/
def handle_two_character_line (tokens : List (List Char)) (st : AsmState) :
    Except (AsmErr × AsmState) AsmState :=
  let token := tokens.getD 0 []
  let command := tokens.getD 1 []
  match lookup_token token with
  | none => .error (.synError token, st)
  | some found_token =>
      match command with
      | [] => .error (.emptyCommand, st)
      | special_character :: value =>
          if special_character = '#' then
            load_immediate_command found_token value st
          else if special_character = '$' then
            load_mem_location_command found_token value st
          else
            .ok st

/-- Embeds `parse_line` of `src/asm_parser.rs`: split the line on single spaces;
one token goes to `handle_one_character_line`, two to
`handle_two_character_line`, any other count falls through untouched. -/
def parse_line (line : List Char) (st : AsmState) :
    Except (AsmErr × AsmState) AsmState :=
  let tokens := splitSpaces line
  if tokens.length = 1 then handle_one_character_line (tokens.getD 0 []) st
  else if tokens.length = 2 then handle_two_character_line tokens st
  else .ok st

end AsmParser

/-- Projects the `.ok` branch of an `Except` result. -/
def resOk {ε α : Type} : Except ε α → Option α
  | .ok a => some a
  | .error _ => none

/-- A freshly created CPU (`CPU::new`): all registers, flags, `pc`, `sp`
zero, memory zero-filled, given cycle budget and program bytes. -/
def freshCPU (bytes : List Nat) (cyc : Nat) : CPU :=
  { pc := 0, sp := 0, memory := mkMem bytes cyc,
    x := 0, a := 0, y := 0,
    c := 0, z := 0, i := 0, d := 0, b := 0, v := 0, n := 0 }

/-- A fresh assembler state: empty memory image, cursor 0, budget 0. -/
def st0 : AsmParser.AsmState := { mem := mkMem [] 0, curr_mem_add := 0 }

/-- CPU for the absolute-load cycle experiment: program
`LDA $1234` (bytes AD 34 12), the byte 0x55 preset at 0x1234, and the
cycle budget at 5 (the number of `cycle_a_pc_inc` calls one absolute load
actually performs, so the run halts right after the one instruction). -/
def absCpu : CPU :=
  { freshCPU [] 0 with
      memory := { data := fun j => if j = 4660 then 0x55 else [0xAD, 0x34, 0x12].getD j 0,
                  data_cycle_count := 5 } }

/-- CPU for the absolute-load-to-Y experiment: `pc` already points at the
operand bytes 34 12, the byte 0x77 preset at 0x1234, ample budget. -/
def apYCpu : CPU :=
  { freshCPU [] 0 with
      memory := { data := fun j => if j = 4660 then 0x77 else [0x34, 0x12].getD j 0,
                  data_cycle_count := 10 } }

namespace AsmParser

/-- A hexadecimal digit evaluates below 16. -/
theorem hexDigit_lt {ch : Char} {dv : Nat} (h : hexDigitVal ch = some dv) : dv < 16 := by
  unfold hexDigitVal at h
  split_ifs at h with h1 h2 h3 <;> simp_all <;> omega

/-- A character that evaluates as a hexadecimal digit is not the plus
sign. -/
theorem hexDigit_ne_plus {ch : Char} {dv : Nat} (h : hexDigitVal ch = some dv) : ch ≠ '+' := by
  rintro rfl
  simp [hexDigitVal] at h

/-- Emission of the zero-page arm of `load_memory_location`: when the
operand parses as hex below 256 and the cursor leaves room, the zero-page
opcode and the operand byte are emitted and the cursor advances by 2. -/
theorem zp_effect (zp ap : Token) (value : List Char) (v : Nat) (st : AsmState)
    (hv : parseHex value = some v) (hlt : v < 256) (hcur : st.curr_mem_add + 2 < 65536) :
    (resOk (zpOrAp zp ap value st)).map
      (fun s => (s.mem.data st.curr_mem_add, s.mem.data (st.curr_mem_add + 1), s.curr_mem_add))
      = some (zp.code, v, st.curr_mem_add + 2) := by
  have h1 : v ≤ 65535 := by omega
  have h2 : v ≤ 255 := by omega
  have m1 : (st.curr_mem_add + 1) % u16Mod = st.curr_mem_add + 1 := by
    unfold u16Mod; omega
  have m2 : (st.curr_mem_add + 1 + 1) % u16Mod = st.curr_mem_add + 2 := by
    unfold u16Mod; omega
  simp [zpOrAp, is_zero_page, hv, h1, hlt, load_zero_page, convert_hex_string_to_u8, h2,
        Memory.write, Memory.addCycles, resOk, m1, m2]

/-- Emission of the absolute arm of `load_memory_location`: when the
4-character operand parses as hex at or above 256 and the cursor leaves
room, the absolute opcode and the two little-endian operand bytes are
emitted and the cursor advances by 3. -/
theorem ap_effect (zp ap : Token) (value : List Char) (v : Nat) (st : AsmState)
    (hv : parseHex value = some v) (hge : 256 ≤ v) (hlen : value.length = 4)
    (hcur : st.curr_mem_add + 3 < 65536) :
    (resOk (zpOrAp zp ap value st)).map
      (fun s => (s.mem.data st.curr_mem_add, s.mem.data (st.curr_mem_add + 1),
                 s.mem.data (st.curr_mem_add + 2), s.curr_mem_add))
      = some (ap.code, v % 256, v / 256, st.curr_mem_add + 3) := by
  have hnlt : ¬ v < 256 := by omega
  have m1 : (st.curr_mem_add + 1) % u16Mod = st.curr_mem_add + 1 := by unfold u16Mod; omega
  have m2 : (st.curr_mem_add + 1 + 1) % u16Mod = st.curr_mem_add + 2 := by unfold u16Mod; omega
  have m3 : (st.curr_mem_add + 1 + 1 + 1) % u16Mod = st.curr_mem_add + 3 := by unfold u16Mod; omega
  have m4 : (st.curr_mem_add + 2 + 1) % u16Mod = st.curr_mem_add + 3 := by unfold u16Mod; omega
  rcases value with _ | ⟨a, _ | ⟨b, _ | ⟨c2, _ | ⟨d, _ | ⟨e, tail⟩⟩⟩⟩⟩ <;> simp at hlen
  by_cases hplus : a = '+'
  · subst hplus
    have hv' : hexCore [b, c2, d] 0 = some v := by simpa [parseHex] using hv
    cases hb : hexDigitVal b with
    | none => simp [hexCore, hb] at hv'
    | some db =>
      cases hc : hexDigitVal c2 with
      | none => simp [hexCore, hb, hc] at hv'
      | some dc =>
        cases hd : hexDigitVal d with
        | none => simp [hexCore, hb, hc, hd] at hv'
        | some dd =>
          have hveq : v = (db * 16 + dc) * 16 + dd := by
            simp [hexCore, hb, hc, hd] at hv'; omega
          have bb := hexDigit_lt hb
          have bc := hexDigit_lt hc
          have bd := hexDigit_lt hd
          have hle : v ≤ 65535 := by omega
          have hnc : c2 ≠ '+' := hexDigit_ne_plus hc
          have hzp : is_zero_page ['+', b, c2, d] = some false := by
            unfold is_zero_page
            rw [hv]
            simp [hle, hnlt]
          simp [zpOrAp, hzp, load_mem_page, sliceStr,
                convert_hex_string_to_u8, parseHex, hexCore, hb, hc, hd, hnc,
                Memory.write, Memory.addCycles, resOk, m1, m2, m3, m4,
                show db ≤ 255 by omega, show dc * 16 + dd ≤ 255 by omega]
          omega
  · have hv' : hexCore [a, b, c2, d] 0 = some v := by simpa [parseHex, hplus] using hv
    cases ha : hexDigitVal a with
    | none => simp [hexCore, ha] at hv'
    | some da =>
      cases hb : hexDigitVal b with
      | none => simp [hexCore, ha, hb] at hv'
      | some db =>
        cases hc : hexDigitVal c2 with
        | none => simp [hexCore, ha, hb, hc] at hv'
        | some dc =>
          cases hd : hexDigitVal d with
          | none => simp [hexCore, ha, hb, hc, hd] at hv'
          | some dd =>
            have hveq : v = ((da * 16 + db) * 16 + dc) * 16 + dd := by
              simp [hexCore, ha, hb, hc, hd] at hv'; omega
            have ba := hexDigit_lt ha
            have bb := hexDigit_lt hb
            have bc := hexDigit_lt hc
            have bd := hexDigit_lt hd
            have hle : v ≤ 65535 := by omega
            have hnc : c2 ≠ '+' := hexDigit_ne_plus hc
            have hzp : is_zero_page [a, b, c2, d] = some false := by
              unfold is_zero_page
              rw [hv]
              simp [hle, hnlt]
            simp [zpOrAp, hzp, load_mem_page, sliceStr,
                  convert_hex_string_to_u8, parseHex, hexCore, ha, hb, hc, hd, hplus, hnc,
                  Memory.write, Memory.addCycles, resOk, m1, m2, m3, m4,
                  show da * 16 + db ≤ 255 by omega, show dc * 16 + dd ≤ 255 by omega]
            omega

end AsmParser

/-- C1: contrary to the claim, after an immediate load the zero flag is
not recomputed from the written value (`load_immediate_value` calls
`check_n_flag` twice and `check_z_flag` never), and for LDX/LDY the
negative flag is computed from the accumulator (`check_n_flag` tests
`self.a` in every branch).  Running `LDA #$00` (bytes 89 00, budget 2)
leaves a = 0 with z = 0 (the claim requires z = 1), and running
`LDX #$80` (bytes A2 80, budget 2) leaves x = 0x80 with n = 0 (the claim
requires n = 1). -/
theorem c1_immediate_load_flag_update :
    (resOk (AsmRunner.run_memory 2 (freshCPU [0x89, 0x00] 2))).map
      (fun cp => (cp.a, cp.z)) = some (0, 0)
  ∧ (resOk (AsmRunner.run_memory 2 (freshCPU [0xA2, 0x80] 2))).map
      (fun cp => (cp.x, cp.n)) = some (128, 0) := by
  exact ⟨rfl, rfl⟩

/-- C2: contrary to the claim, one absolute-mode load performs five
`cycle_a_pc_inc` calls, not four (an extra one runs after the register
write at the end of `load_ap_location`), and each of them also bumps the
program counter, so `pc` advances by 5, not 3.  With `LDA $1234`
(bytes AD 34 12, 0x55 preset at 0x1234) and budget 5, the run halts with
pc = 5 and budget 0 — five cycles consumed against the recorded
encode-time cost of 4. -/
theorem c2_absolute_load_cycle_pc_cost :
    cycle_map Token.LdaAP = 4
  ∧ (resOk (AsmRunner.run_memory 2 absCpu)).map
      (fun cp => (cp.pc, cp.memory.data_cycle_count, cp.a)) = some (5, 0, 0x55) := by
  exact ⟨rfl, rfl⟩

/-- C3 counterexample: `NOP` is present in the Opcode Table (its opcode
byte encodes as 0xEA), yet the Execution Engine's dispatch does not decode
that byte — it faults ("Command not found"), so encode-then-decode does
not recover the variant for every table entry. -/
theorem c3_encode_decode_counterexample :
    AsmRunner.decode (Token.code Token.NOP) = none := by
  rfl

/-- C3 (amended): for each of the five variants the Execution Engine's
dispatch actually handles — LDA/LDX/LDY immediate, LDA zero-page and LDA
absolute — encoding the opcode byte and decoding it recovers the same
variant. -/
theorem c3_dispatch_roundtrip :
    AsmRunner.decode (Token.code Token.LDA) = some Token.LDA
  ∧ AsmRunner.decode (Token.code Token.LDX) = some Token.LDX
  ∧ AsmRunner.decode (Token.code Token.LDY) = some Token.LDY
  ∧ AsmRunner.decode (Token.code Token.LdaZP) = some Token.LdaZP
  ∧ AsmRunner.decode (Token.code Token.LdaAP) = some Token.LdaAP := by
  exact ⟨rfl, rfl, rfl, rfl, rfl⟩

/-- C4: contrary to the claim, the Y branch of `load_ap_location` writes
the fetched value into the accumulator (`cpu.a`), not into Y.  With the
operand bytes 34 12 at `pc` and 0x77 preset at 0x1234, an absolute load
with destination register Y (code 2) ends with a = 0x77 and y = 0 — the
accumulator is clobbered and Y keeps its prior value. -/
theorem c4_absolute_load_y_register_bug :
    (resOk (AsmRunner.load_ap_location 2 apYCpu)).map
      (fun cp => (cp.a, cp.y)) = some (0x77, 0) := by
  rfl

/-- C5: running the Execution Engine over bytes 89 0A from pc = 0 with
budget 2 halts (the run returns `.ok`, i.e. the cycle counter reached 0)
with accumulator 0x0A, zero flag 0, negative flag 0, pc = 2 and budget
0. -/
theorem c5_run_lda_immediate_example :
    (resOk (AsmRunner.run_memory 2 (freshCPU [0x89, 0x0A] 2))).map
      (fun cp => (cp.a, cp.z, cp.n, cp.pc, cp.memory.data_cycle_count))
      = some (0x0A, 0, 0, 2, 0) := by
  rfl

/-- C6 counterexample: the operand text "100" parses as hex to 0x100,
which is not below 0x100, yet assembling `LDA $100` does not emit the
absolute encoding — `load_mem_page` panics slicing `value[2..4]` of the
3-character operand, so the claim fails as stated for every
memory-reference operand. -/
theorem c6_three_digit_absolute_counterexample :
    AsmParser.parseHex ("100".data) = some 256
  ∧ resOk (AsmParser.load_memory_location Token.LDA ("100".data) st0) = none := by
  exact ⟨rfl, rfl⟩

/-- C6 (amended): for a memory-reference operand of a load instruction
(LDA/LDX/LDY) whose text parses as hex, if the value is below 0x100 the
Encoder emits the zero-page variant's opcode followed by 1 operand byte
(cursor +2), and if the value is at least 0x100 AND the operand text is
exactly 4 characters it emits the absolute variant's opcode followed by
the 2 operand bytes in little-endian order (cursor +3). -/
theorem c6_memory_operand_encoding (value : List Char) (v : Nat)
    (st : AsmParser.AsmState)
    (hv : AsmParser.parseHex value = some v) (hcur : st.curr_mem_add + 3 < 65536) :
    (v < 256 →
      ((resOk (AsmParser.load_memory_location Token.LDA value st)).map
        (fun s => (s.mem.data st.curr_mem_add, s.mem.data (st.curr_mem_add + 1), s.curr_mem_add))
        = some (0xA5, v, st.curr_mem_add + 2)
      ∧ (resOk (AsmParser.load_memory_location Token.LDX value st)).map
        (fun s => (s.mem.data st.curr_mem_add, s.mem.data (st.curr_mem_add + 1), s.curr_mem_add))
        = some (0xA6, v, st.curr_mem_add + 2)
      ∧ (resOk (AsmParser.load_memory_location Token.LDY value st)).map
        (fun s => (s.mem.data st.curr_mem_add, s.mem.data (st.curr_mem_add + 1), s.curr_mem_add))
        = some (0xA4, v, st.curr_mem_add + 2)))
  ∧ (256 ≤ v → value.length = 4 →
      ((resOk (AsmParser.load_memory_location Token.LDA value st)).map
        (fun s => (s.mem.data st.curr_mem_add, s.mem.data (st.curr_mem_add + 1),
                   s.mem.data (st.curr_mem_add + 2), s.curr_mem_add))
        = some (0xAD, v % 256, v / 256, st.curr_mem_add + 3)
      ∧ (resOk (AsmParser.load_memory_location Token.LDX value st)).map
        (fun s => (s.mem.data st.curr_mem_add, s.mem.data (st.curr_mem_add + 1),
                   s.mem.data (st.curr_mem_add + 2), s.curr_mem_add))
        = some (0xAE, v % 256, v / 256, st.curr_mem_add + 3)
      ∧ (resOk (AsmParser.load_memory_location Token.LDY value st)).map
        (fun s => (s.mem.data st.curr_mem_add, s.mem.data (st.curr_mem_add + 1),
                   s.mem.data (st.curr_mem_add + 2), s.curr_mem_add))
        = some (0xAC, v % 256, v / 256, st.curr_mem_add + 3))) := by
  constructor
  · intro hlt
    exact ⟨AsmParser.zp_effect .LdaZP .LdaAP value v st hv hlt (by omega),
           AsmParser.zp_effect .LdxZP .LdxAP value v st hv hlt (by omega),
           AsmParser.zp_effect .LdyZP .LdyAP value v st hv hlt (by omega)⟩
  · intro hge hlen
    exact ⟨AsmParser.ap_effect .LdaZP .LdaAP value v st hv hge hlen hcur,
           AsmParser.ap_effect .LdxZP .LdxAP value v st hv hge hlen hcur,
           AsmParser.ap_effect .LdyZP .LdyAP value v st hv hge hlen hcur⟩

/-- C6 witness: instantiating the amended theorem at `LDA $1234` on the
fresh assembler state yields the absolute encoding AD 34 12 at offsets
0..2 with the cursor at 3. -/
theorem c6_memory_operand_encoding_witness :
    (resOk (AsmParser.load_memory_location Token.LDA ("1234".data) st0)).map
      (fun s => (s.mem.data st0.curr_mem_add, s.mem.data (st0.curr_mem_add + 1),
                 s.mem.data (st0.curr_mem_add + 2), s.curr_mem_add))
      = some (0xAD, 4660 % 256, 4660 / 256, st0.curr_mem_add + 3) :=
  ((c6_memory_operand_encoding ("1234".data) 4660 st0 (by rfl) (by decide)).2
    (by decide) (by rfl)).1

/-- C7: assembling the line "LDA #10" into a fresh state writes 0x89 at
offset 0 and 0x0A at offset 1, advances the cursor to 2 and raises the
cycle counter (from 0) by exactly the immediate-load cost
`cycle_map Token.LDA`. -/
theorem c7_assemble_lda_immediate :
    (resOk (AsmParser.parse_line ("LDA #10".data) st0)).map
      (fun s => (s.mem.data 0, s.mem.data 1, s.curr_mem_add, s.mem.data_cycle_count))
      = some (0x89, 0x0A, 2, cycle_map Token.LDA) := by
  rfl

/-- C8 counterexample: for the line `LDA %10` — a known mnemonic with an
operand starting with neither '#' nor '\x24' — resolution does not fail
with any error: `handle_two_character_line` prints "default" and returns
with the memory image, cursor and cycle budget untouched, so the claim's
required `UnsupportedOperandSyntax` failure does not happen. -/
theorem c8_unsupported_operand_counterexample :
    AsmParser.handle_two_character_line ["LDA".data, "%10".data] st0 = .ok st0 := by
  rfl

/-- C8 (amended): for every two-token line whose mnemonic is in the
Mnemonic Table and whose operand begins with a character other than '#'
and '\x24', the line is silently ignored: no error is raised and the
assembler state (memory image, cursor, cycle budget) is returned
unchanged. -/
theorem c8_unknown_operand_prefix_ignored (st : AsmParser.AsmState)
    (tok : List Char) (t : Token) (c0 : Char) (rest : List Char)
    (hm : AsmParser.lookup_token tok = some t) (h1 : c0 ≠ '#') (h2 : c0 ≠ '$') :
    AsmParser.handle_two_character_line [tok, c0 :: rest] st = .ok st := by
  simp [AsmParser.handle_two_character_line, hm, h1, h2]

/-- C8 witness: the amended theorem applied to the line `LDX %5` on the
fresh assembler state. -/
theorem c8_unknown_operand_prefix_ignored_witness :
    AsmParser.handle_two_character_line ["LDX".data, "%5".data] st0 = .ok st0 :=
  c8_unknown_operand_prefix_ignored st0 ("LDX".data) Token.LDX '%' ("5".data)
    (by decide) (by decide) (by decide)

/-- C9: a line that splits into one or two tokens whose mnemonic is not
in the Mnemonic Table makes `parse_line` fail with the "Syntax error"
panic, and the state carried at the panic is exactly the incoming state —
no byte, cursor or cycle-budget mutation happened for that line. -/
theorem c9_unknown_mnemonic_syntax_error (st : AsmParser.AsmState)
    (line : List Char) (tok : List Char)
    (hsplit : AsmParser.splitSpaces line = [tok]
      ∨ ∃ op, AsmParser.splitSpaces line = [tok, op])
    (hm : AsmParser.lookup_token tok = none) :
    AsmParser.parse_line line st = .error (.synError tok, st) := by
  unfold AsmParser.parse_line
  rcases hsplit with h | ⟨op, h⟩ <;>
    rw [h] <;>
    simp [AsmParser.handle_one_character_line, AsmParser.handle_two_character_line, hm]

/-- C9 witness: the theorem applied to the line "FOO" on the fresh
assembler state. -/
theorem c9_unknown_mnemonic_syntax_error_witness :
    AsmParser.parse_line ("FOO".data) st0 = .error (.synError ("FOO".data), st0) :=
  c9_unknown_mnemonic_syntax_error st0 ("FOO".data) ("FOO".data)
    (Or.inl (by rfl)) (by decide)

/-- C10: a line that splits on single spaces into three or more tokens is
skipped by `parse_line`: no error is signalled and the assembler state
(memory image, cursor, cycle budget) is returned unchanged. -/
theorem c10_three_token_line_ignored (st : AsmParser.AsmState) (line : List Char)
    (h : 3 ≤ (AsmParser.splitSpaces line).length) :
    AsmParser.parse_line line st = .ok st := by
  unfold AsmParser.parse_line
  have h1 : ¬ (AsmParser.splitSpaces line).length = 1 := by omega
  have h2 : ¬ (AsmParser.splitSpaces line).length = 2 := by omega
  simp [h1, h2]

/-- C10 witness: the theorem applied to the line "A B C" on the fresh
assembler state. -/
theorem c10_three_token_line_ignored_witness :
    AsmParser.parse_line ("A B C".data) st0 = .ok st0 :=
  c10_three_token_line_ignored st0 ("A B C".data) (by decide)

end R6502
